import Mathlib

/-!
Verification of the synchronization engine of the erpnext-fastapi bridge.

The development shallowly embeds the record data model and the operations of
the bridge (submit, caller-facing update/delete, the outbound sync pass, the
inbound fetch-all pass, and the bounded read endpoints) as executable Lean
functions, translated from the Python source:
  src/main.py, src/routes/issues.py, src/services/sync_service.py,
  src/services/erp_service.py.
Remote HTTP calls are modelled by oracles giving the outcome of each request;
the Mongo collection is modelled as a list of records, with `update_one`
updating the first match and `insert_one` appending.  Each operation also
returns the ordered trace of the store writes and remote requests it performs,
so that ordering properties ("local write before remote call") are statable.
-/

namespace ErpBridge

/-- JSON values appearing in request payloads and responses.  Timestamps are
serialized to strings by `serialize_for_erp` (datetime.isoformat). -/
inductive JValue where
  | str (s : String)
  | num (n : Int)
  | bool (b : Bool)
  | null
deriving DecidableEq, Repr

/-- Abstract rendering of `datetime.isoformat()`; timestamps are modelled as
natural numbers and the rendering only needs to be a fixed function. -/
def isoString (t : Nat) : String :=
  toString t

/-- Python `str.capitalize()`: first character uppercased, the rest
lowercased. -/
def pyCapitalize (s : String) : String :=
  match s.data with
  | [] => ""
  | c :: cs => String.mk (c.toUpper :: cs.map Char.toLower)

/-- A record ("issue") of the local Mongo store.  `id` models the Mongo
`_id`; `name` models the ERPNext identifier (the `remote_id` of the spec),
absent (or null) until assigned.  `subject` and `raised_by` are `Option`
because documents upserted from ERPNext store whatever the remote returned,
including null.  Timestamps are naturals. -/
structure Issue where
  id : Nat
  name : Option String
  subject : Option String
  raised_by : Option String
  status : String
  created_at : Option Nat
  synced : Bool
  synced_at : Option Nat
deriving DecidableEq, Repr

/-- The local store: the `issues` Mongo collection as a list of documents. -/
abbrev Store := List Issue

/-- Mongo `find_one` on `_id`: first document with the given id. -/
def findById (st : Store) (i : Nat) : Option Issue :=
  st.find? (fun r => r.id == i)

/-- Mongo `update_one`: apply `f` to the first document satisfying `p`,
leave everything else unchanged. -/
def updateFirst (p : Issue → Bool) (f : Issue → Issue) : Store → Store
  | [] => []
  | r :: rs => if p r then f r :: rs else r :: updateFirst p f rs

/-- Mongo `delete_one`: remove the first document satisfying `p`. -/
def removeFirst (p : Issue → Bool) : Store → Store
  | [] => []
  | r :: rs => if p r then rs else r :: removeFirst p rs

/-- Observable actions of an operation, in execution order: store writes and
remote HTTP requests. -/
inductive Event where
  | remotePost (payload : List (String × JValue))
  | remotePut (name : String) (payload : List (String × JValue))
  | remoteDelete (name : String)
  | localInsert (r : Issue)
  | localUpdate (id : Nat)
  | localDelete (id : Nat)
deriving DecidableEq, Repr

/-- Whether an event is a request to the remote ERP endpoint. -/
def isRemoteEvent : Event → Bool
  | .remotePost _ => true
  | .remotePut _ _ => true
  | .remoteDelete _ => true
  | _ => false

/-- Whether the trace contains a remote DELETE request. -/
def hasRemoteDeleteEvent (evs : List Event) : Bool :=
  evs.any (fun e => match e with | .remoteDelete _ => true | _ => false)

/-- Payload lookup by field key (first occurrence). -/
def lookupJ (l : List (String × JValue)) (k : String) : Option JValue :=
  (l.find? (fun p => p.1 == k)).map (fun p => p.2)

/-- Outcome of the one POST that `submit_issue` makes against the ERP
endpoint: `unreachable` is `httpx.RequestError`, `rejected` is
`httpx.HTTPStatusError` from `raise_for_status`, `otherError` any other
exception; `submit_issue` never reads the success response body. -/
inductive RemoteResult where
  | unreachable
  | rejected (code : Nat)
  | otherError
  | success
deriving DecidableEq, Repr

/-- True exactly when the POST returned a 2xx response. -/
def RemoteResult.isSuccess : RemoteResult → Bool
  | .success => true
  | _ => false

/-- The request body of `POST /submit-issue` (`IssueEntry` of
src/models/issue.py): `subject` and `raised_by` are required, `status`
defaults to "Open"; callers may also supply `name`, `synced` and
`synced_at`, which the handler serializes into the outgoing payload
(`created_at` is always overwritten with the current time and the `_id`
alias is not modelled: the store assigns a fresh id). -/
structure IssueEntryIn where
  subject : String
  raised_by : String
  status : String
  name : Option String
  synced : Bool
  synced_at : Option Nat
deriving DecidableEq, Repr

/-- Encode an optional string field as JSON. -/
def jOptStr : Option String → JValue
  | some s => .str s
  | none => .null

/-- Encode an optional timestamp field: `serialize_for_erp` turns datetimes
into isoformat strings, None stays null. -/
def jOptTime : Option Nat → JValue
  | some t => .str (isoString t)
  | none => .null

/-- The JSON body `submit_issue` posts to ERP: `serialize_for_erp(issue_data)`
where `issue_data = issue.dict()` with `created_at` set to now.  It is the
full record dict — every model field, `created_at` included. -/
def submitPayload (inp : IssueEntryIn) (now : Nat) : List (String × JValue) :=
  [("subject", .str inp.subject),
   ("raised_by", .str inp.raised_by),
   ("status", .str inp.status),
   ("id", .null),
   ("name", jOptStr inp.name),
   ("created_at", .str (isoString now)),
   ("synced", .bool inp.synced),
   ("synced_at", jOptTime inp.synced_at)]

/-- The document `submit_issue` inserts into Mongo: the request fields with
`created_at := now` and `synced`/`synced_at` reflecting the outcome of the
remote POST (`nowAfter` is the time taken after a successful POST). -/
def submitRecord (inp : IssueEntryIn) (remote : RemoteResult)
    (now nowAfter : Nat) (newId : Nat) : Issue :=
  { id := newId
    name := inp.name
    subject := some inp.subject
    raised_by := some inp.raised_by
    status := inp.status
    created_at := some now
    synced := remote.isSuccess
    synced_at := if remote.isSuccess then some nowAfter else none }

/-- Result of `submit_issue`: the trace, the final store, and the JSON
response returned to the caller. -/
structure SubmitOutcome where
  events : List Event
  store : Store
  respStatus : String
  respSynced : Bool
deriving DecidableEq, Repr

/-- Embeds `submit_issue` (src/main.py lines 264-308; src/routes/issues.py
lines 76-117 is the identical handler).  The handler builds `issue_data`,
POSTs it to the ERP endpoint inside a try block that catches every
exception, then inserts the document into Mongo with `synced`/`synced_at`
set from the outcome, and returns a 200 response in all cases. -/
def submit_issue (st : Store) (inp : IssueEntryIn) (remote : RemoteResult)
    (now nowAfter : Nat) (newId : Nat) : SubmitOutcome :=
  let r := submitRecord inp remote now nowAfter newId
  { events := [.remotePost (submitPayload inp now), .localInsert r]
    store := st ++ [r]
    respStatus := "stored"
    respSynced := r.synced }

/-- The ordering property claimed by the spec for `submit`: every remote
request in the trace is preceded by an insert of an unsynced record into the
local store.  `seen` accumulates whether such an insert has occurred. -/
def localWriteBeforeRemote : List Event → Bool → Bool
  | [], _ => true
  | .localInsert r :: rest, seen => localWriteBeforeRemote rest (seen || !r.synced)
  | .remotePost _ :: rest, seen => seen && localWriteBeforeRemote rest seen
  | .remotePut _ _ :: rest, seen => seen && localWriteBeforeRemote rest seen
  | e :: rest, seen =>
      match e with
      | .remoteDelete _ => seen && localWriteBeforeRemote rest seen
      | _ => localWriteBeforeRemote rest seen

/-- Response data of one ERP request made by the outbound pass, as used by
`sync_pending_issues_task`: only `response.json().get("data", {}).get("name")`
is ever read.  Python truthiness is folded in: a missing, null, empty or
otherwise falsy name is `none`. -/
structure RespData where
  name : Option String
deriving DecidableEq, Repr

/-- Outcome of the single HTTP request `submit_issue_to_erp` makes for one
record: `ok` is a 2xx response, `httpError` is `HTTPStatusError` (or the
`HTTPException` raised by the service), `netError` is `httpx.RequestError`,
`otherError` any other exception.  All failures are caught by the pass. -/
inductive CallResult where
  | ok (data : RespData)
  | httpError (code : Nat)
  | netError
  | otherError
deriving DecidableEq, Repr

/-- The `if erp_issue_name:` truthiness test of the pass: the record's ERP
name when present and non-empty, otherwise `none` (a record whose `name` is
null or the empty string takes the create path). -/
def truthyName (r : Issue) : Option String :=
  match r.name with
  | some n => if n = "" then none else some n
  | none => none

/-- The `erp_payload` built by `submit_issue_to_erp`
(src/services/erp_service.py lines 30-37): subject, raised_by and the
capitalized status; for updates additionally the ERP `name`. -/
def outboundPayload (r : Issue) (nameField : Option String) :
    List (String × JValue) :=
  let base := [("subject", jOptStr r.subject),
               ("raised_by", jOptStr r.raised_by),
               ("status", JValue.str (pyCapitalize r.status))]
  match nameField with
  | some n => base ++ [("name", JValue.str n)]
  | none => base

/-- The `$set` applied by the pass on success: synced, synced_at and the ERP
name (src/services/sync_service.py lines 39-46). -/
def setSyncedFields (now : Nat) (n : String) (r : Issue) : Issue :=
  { r with synced := true, synced_at := some now, name := some n }

/-- Result of processing one pending record: the store after the step, the
increment of `synced_count` (0 or 1), the trace. -/
structure StepResult where
  store : Store
  inc : Nat
  events : List Event
deriving DecidableEq, Repr

/-- Embeds the body of the per-record loop of `sync_pending_issues_task`
(src/services/sync_service.py lines 23-55, calling `submit_issue_to_erp` of
src/services/erp_service.py).  `cfg` is whether ERP_API_URL and ERP_SID are
configured: when not, `submit_issue_to_erp` raises before any request is
made, the exception is caught and the record is skipped.  With a truthy
`name` the record is PUT (updated); otherwise it is POSTed (created) and the
name returned by ERP is persisted — unless the response carries no name, in
which case the pass logs and continues without advancing the record. -/
def pushOne (cfg : Bool) (oracle : Issue → CallResult) (now : Nat)
    (st : Store) (r : Issue) : StepResult :=
  if cfg then
    match truthyName r with
    | some n =>
      match oracle r with
      | .ok _ =>
          ⟨updateFirst (fun x => x.id == r.id) (setSyncedFields now n) st, 1,
           [.remotePut n (outboundPayload r (some n)), .localUpdate r.id]⟩
      | _ => ⟨st, 0, [.remotePut n (outboundPayload r (some n))]⟩
    | none =>
      match oracle r with
      | .ok d =>
        match d.name with
        | some m =>
            ⟨updateFirst (fun x => x.id == r.id) (setSyncedFields now m) st, 1,
             [.remotePost (outboundPayload r none), .localUpdate r.id]⟩
        | none => ⟨st, 0, [.remotePost (outboundPayload r none)]⟩
      | _ => ⟨st, 0, [.remotePost (outboundPayload r none)]⟩
  else
    ⟨st, 0, []⟩

/-- Result of an outbound pass: trace, final store and the returned
`synced_count`. -/
structure PassResult where
  events : List Event
  store : Store
  syncedCount : Nat
deriving DecidableEq, Repr

/-- The loop of the outbound pass over the snapshot of pending records. -/
def runPending (cfg : Bool) (oracle : Issue → CallResult) (now : Nat) :
    Store → Nat → List Event → List Issue → PassResult
  | st, c, evs, [] => ⟨evs, st, c⟩
  | st, c, evs, r :: rest =>
      let s := pushOne cfg oracle now st r
      runPending cfg oracle now s.store (c + s.inc) (evs ++ s.events) rest

/-- The snapshot `find({"synced": False}).to_list(length=None)`: all pending
records, unbounded. -/
def pendingOf (st : Store) : List Issue :=
  st.filter (fun r => !r.synced)

/-- Embeds `sync_pending_issues_task` (src/services/sync_service.py lines
11-57): fetch the pending snapshot, push each record, return the count of
records synced in this pass. -/
def sync_pending_issues_task (cfg : Bool) (oracle : Issue → CallResult)
    (now : Nat) (st : Store) : PassResult :=
  runPending cfg oracle now st 0 [] (pendingOf st)

/-- Whether the push of record `r` succeeds in this pass: the endpoint must
be configured, the request must return 2xx, and for a create the response
must carry an ERP name. -/
def successfulPush (cfg : Bool) (oracle : Issue → CallResult) (r : Issue) :
    Bool :=
  cfg && (match truthyName r, oracle r with
          | some _, .ok _ => true
          | none, .ok d => d.name.isSome
          | _, _ => false)

/-- A record of the ERPNext list response, with the fields requested by the
inbound pass: `name` (the ERP primary key — a record without it would make
the whole batch fail, which is outside the claims dealt with here), and the
possibly-null subject, raised_by and status. -/
structure RemoteIssue where
  name : String
  subject : Option String
  raised_by : Option String
  status : Option String
deriving DecidableEq, Repr

/-- Outcome of one `fetch_issues_from_erp(start, batch_size)` page fetch. -/
inductive FetchResult where
  | ok (batch : List RemoteIssue)
  | err
deriving DecidableEq, Repr

/-- Whether the store holds a document with the given ERP name. -/
def hasName (st : Store) (n : String) : Bool :=
  st.any (fun r => r.name == some n)

/-- The `$set` document of the inbound upsert, applied to a matched local
record (src/services/sync_service.py lines 80-86).  Metadata missing
upstream defaults: status to "Open" (a present-but-null upstream status is
also normalized here, a harmless strengthening of `.get("status", "Open")`).
The match key `name` is not overwritten by the set. -/
def inboundDoc (now : Nat) (g : RemoteIssue) (r : Issue) : Issue :=
  { r with subject := g.subject
           raised_by := g.raised_by
           status := g.status.getD "Open"
           synced := true
           synced_at := some now }

/-- The document a non-matching upsert inserts: the equality key `name` from
the filter plus the `$set` fields; Mongo assigns a fresh `_id` and no
`created_at` is set. -/
def freshDoc (now : Nat) (g : RemoteIssue) (newId : Nat) : Issue :=
  { id := newId
    name := some g.name
    subject := g.subject
    raised_by := g.raised_by
    status := g.status.getD "Open"
    created_at := none
    synced := true
    synced_at := some now }

/-- Running state of the inbound pass: the store, the inserted/updated
counters, the failed batch starts, and the supply of fresh Mongo ids. -/
structure InboundState where
  store : Store
  inserted : Nat
  updated : Nat
  failed : List Nat
  nextId : Nat
deriving DecidableEq, Repr

/-- One upsert of the inbound pass, keyed on the ERP `name`
(`update_one({"name": ...}, {"$set": ...}, upsert=True)`).  On a match the
first matching document is rewritten (`updated` counts the upserts whose
`$set` actually changed the document, Mongo's `modified_count`); otherwise a
fresh document is inserted and `inserted` is bumped. -/
def upsertFromErp (now : Nat) (g : RemoteIssue) (s : InboundState) :
    InboundState :=
  if hasName s.store g.name then
    let st := updateFirst (fun r => r.name == some g.name) (inboundDoc now g) s.store
    { s with store := st
             updated := if st = s.store then s.updated else s.updated + 1 }
  else
    { s with store := s.store ++ [freshDoc now g s.nextId]
             inserted := s.inserted + 1
             nextId := s.nextId + 1 }

/-- Upsert every record of one fetched page, in order. -/
def processBatch (now : Nat) (batch : List RemoteIssue) (s : InboundState) :
    InboundState :=
  batch.foldl (fun acc g => upsertFromErp now g acc) s

/-- The batch loop of `sync_all_issues_from_erp`: iterate over the page
offsets; a failed fetch records the offset and stops the pass, an empty page
stops it quietly, otherwise the page is upserted and the loop continues. -/
def inboundLoop (fetch : Nat → FetchResult) (now : Nat) :
    List Nat → InboundState → InboundState
  | [], s => s
  | start :: rest, s =>
      match fetch start with
      | .err => { s with failed := s.failed ++ [start] }
      | .ok [] => s
      | .ok batch => inboundLoop fetch now rest (processBatch now batch s)

/-- The offsets `range(0, stop, step)` of the Python loop (empty for a zero
step, where Python would raise before iterating). -/
def rangeStep (stop step : Nat) : List Nat :=
  if step = 0 then [] else (List.range ((stop + step - 1) / step)).map (· * step)

/-- Embeds `sync_all_issues_from_erp` (src/services/sync_service.py lines
60-117; src/routes/issues.py `fetch_all_and_insert` lines 144-202 is the
same algorithm with fixed batch_size 500 and cap 5000): page through the
remote records and upsert each page into the store keyed by ERP `name`. -/
def sync_all_issues_from_erp (fetch : Nat → FetchResult) (now : Nat)
    (batchSize maxRecords : Nat) (st : Store) (idBase : Nat) : InboundState :=
  inboundLoop fetch now (rangeStep maxRecords batchSize)
    { store := st, inserted := 0, updated := 0, failed := [], nextId := idBase }

/-- A remote endpoint whose data set is the fixed list `remote`, serving
pages as slices — the "unchanged remote data set" of the idempotence claim. -/
def sliceFetch (remote : List RemoteIssue) (batchSize : Nat) :
    Nat → FetchResult :=
  fun start => .ok ((remote.drop start).take batchSize)

/-- The ERP names the inbound loop run over `starts` will upsert; the batch
control flow (where the loop breaks) depends only on the fetch results, not
on the store, so this is a function of the fetch oracle alone. -/
def processedNames (fetch : Nat → FetchResult) : List Nat → List String
  | [] => []
  | start :: rest =>
      match fetch start with
      | .err => []
      | .ok [] => []
      | .ok batch => batch.map RemoteIssue.name ++ processedNames fetch rest

/-- The body of `PUT /issues/item_id` (`IssueEntry` with
`exclude_unset=True`): a field is `some` exactly when the caller supplied it.
For the fields that may be set to null, the inner Option is the value.
FastAPI validation forces `subject` and `raised_by` to be present in any
accepted request, but the handler itself only tests presence, which the
embedding keeps.  The `_id` alias and `created_at` are not modelled (setting
`_id` is rejected by Mongo; `created_at` is never sync-relevant). -/
structure IssueUpdateReq where
  subject : Option String
  raised_by : Option String
  status : Option String
  name : Option (Option String)
  synced : Option Bool
  synced_at : Option (Option Nat)
deriving DecidableEq, Repr

/-- Whether a sync-relevant field is present in the edit request: the
condition of `if "subject" in update_data or "raised_by" in update_data or
"status" in update_data` (src/routes/issues.py line 261). -/
def syncRelevantPresent (req : IssueUpdateReq) : Bool :=
  req.subject.isSome || req.raised_by.isSome || req.status.isSome

/-- The `$set` document of `update_local_issue` applied to the matched
record: the caller-present fields, with `synced := false` and
`synced_at := null` forced whenever a sync-relevant field is present (the
forced values overwrite any caller-supplied `synced`/`synced_at`). -/
def applyUpdateData (req : IssueUpdateReq) (r : Issue) : Issue :=
  let base : Issue :=
    { r with subject := match req.subject with | some s => some s | none => r.subject
             raised_by := match req.raised_by with | some s => some s | none => r.raised_by
             status := req.status.getD r.status
             name := req.name.getD r.name
             synced := req.synced.getD r.synced
             synced_at := req.synced_at.getD r.synced_at }
  if syncRelevantPresent req then
    { base with synced := false, synced_at := none }
  else
    base

/-- Result of `update_local_issue`: trace, final store, and either the
re-fetched updated document (HTTP 200) or `none` for HTTP 404. -/
structure UpdateOutcome where
  events : List Event
  store : Store
  result : Option Issue
deriving DecidableEq, Repr

/-- Embeds `update_local_issue` (src/routes/issues.py lines 252-274;
src/main.py lines 465-492 is identical): `update_one` on the `_id`, 404 when
nothing matched, otherwise the updated document is fetched back and
returned.  No remote request is made by this handler. -/
def update_local_issue (st : Store) (itemId : Nat) (req : IssueUpdateReq) :
    UpdateOutcome :=
  if st.any (fun r => r.id == itemId) then
    let st2 := updateFirst (fun r => r.id == itemId) (applyUpdateData req) st
    { events := [.localUpdate itemId], store := st2, result := findById st2 itemId }
  else
    { events := [.localUpdate itemId], store := st, result := none }

/-- Result of `delete_local_issue`: trace, final store, and whether the
handler raised 404. -/
structure DeleteOutcome where
  events : List Event
  store : Store
  notFound : Bool
deriving DecidableEq, Repr

/-- Embeds `delete_local_issue` (src/routes/issues.py lines 277-288;
src/main.py lines 495-508 is identical): `delete_one` on the `_id`, 404 when
`deleted_count` is zero.  The handler never calls the ERP endpoint — in
particular `erp_service.delete_issue_in_erp` has no caller in the
repository. -/
def delete_local_issue (st : Store) (itemId : Nat) : DeleteOutcome :=
  if st.any (fun r => r.id == itemId) then
    { events := [.localDelete itemId]
      store := removeFirst (fun r => r.id == itemId) st
      notFound := false }
  else
    { events := [.localDelete itemId], store := st, notFound := true }

/-- Embeds `get_all_issues` (src/routes/issues.py lines 219-225):
`find().to_list(length=100)`. -/
def get_all_issues (st : Store) : List Issue :=
  st.take 100

/-- Embeds `get_unsynced` (src/routes/issues.py lines 120-126):
`find(synced=False).to_list(100)`. -/
def get_unsynced (st : Store) : List Issue :=
  (st.filter (fun r => !r.synced)).take 100

/-- Embeds `get_synced_issues` (src/routes/issues.py lines 135-141):
`find(synced=True).to_list(100)`. -/
def get_synced_issues (st : Store) : List Issue :=
  (st.filter (fun r => r.synced)).take 100

/-- A concrete submit input used in counterexamples and witnesses. -/
def inpW : IssueEntryIn :=
  { subject := "Pump broken", raised_by := "farmer_123", status := "open"
    name := none, synced := false, synced_at := none }

/-- A concrete synced record carrying an ERP name, used in counterexamples
and witnesses. -/
def rKM : Issue :=
  { id := 1, name := some "KM-00042", subject := some "Pump broken"
    raised_by := some "farmer_123", status := "Open", created_at := some 0
    synced := true, synced_at := some 2 }

/-- A concrete pending record without an ERP name. -/
def rNew : Issue :=
  { id := 2, name := none, subject := some "Valve stuck"
    raised_by := some "farmer_456", status := "open", created_at := some 1
    synced := false, synced_at := none }

/-- A second concrete pending record without an ERP name. -/
def rNew2 : Issue :=
  { id := 3, name := none, subject := some "Leak"
    raised_by := some "farmer_789", status := "open", created_at := some 1
    synced := false, synced_at := none }

/-- A concrete outbound oracle: the create of `rNew` succeeds with name
"KM-00099", every other request is rejected with a 417. -/
def oracleW : Issue → CallResult :=
  fun r => if r.id == 2 then .ok ⟨some "KM-00099"⟩ else .httpError 417

/-- A concrete edit request which re-submits the subject of `rKM` set to its
current value and supplies nothing else. -/
def reqW : IssueUpdateReq :=
  { subject := some "Pump broken", raised_by := none, status := none
    name := none, synced := none, synced_at := none }

/-- A concrete outbound oracle answering every request with a 2xx response
whose data carries no `name`. -/
def oracleMiss : Issue → CallResult :=
  fun _ => .ok { name := none }

/-- A concrete remote data set for the inbound pass. -/
def remoteW : List RemoteIssue :=
  [{ name := "KM-00001", subject := some "Pump broken"
     raised_by := some "farmer_123", status := some "Open" },
   { name := "KM-00002", subject := none
     raised_by := none, status := none },
   { name := "KM-00003", subject := some "Leak"
     raised_by := some "farmer_789", status := some "Closed" }]

/-! ### Helper lemmas on the store primitives -/

theorem updateFirst_preserves_length (p : Issue → Bool) (f : Issue → Issue) :
    ∀ st : Store, (updateFirst p f st).length = st.length := by
  intro st
  induction st with
  | nil => rfl
  | cons r rs ih =>
      by_cases h : p r <;> simp [updateFirst, h, ih]

theorem findById_updateFirst_ne (f : Issue → Issue) (i j : Nat)
    (hf : ∀ x, (f x).id = x.id) (hij : i ≠ j) :
    ∀ st : Store,
      findById (updateFirst (fun x => x.id == j) f st) i = findById st i := by
  intro st
  induction st with
  | nil => rfl
  | cons r rs ih =>
      cases hc : (r.id == j) with
      | true =>
          have hj : r.id = j := beq_iff_eq.mp hc
          have hni : (r.id == i) = false := beq_eq_false_iff_ne.mpr (by omega)
          have hfni : ((f r).id == i) = false :=
            beq_eq_false_iff_ne.mpr (by rw [hf r]; omega)
          simp [updateFirst, findById, hc, List.find?_cons, hni, hfni]
      | false =>
          cases hi : (r.id == i) with
          | true => simp [updateFirst, findById, hc, List.find?_cons, hi]
          | false =>
              simpa [updateFirst, findById, hc, List.find?_cons, hi] using ih

theorem findById_updateFirst_self (f : Issue → Issue) (i : Nat)
    (hf : ∀ x, (f x).id = x.id) :
    ∀ st : Store,
      findById (updateFirst (fun x => x.id == i) f st) i
        = (findById st i).map f := by
  intro st
  induction st with
  | nil => rfl
  | cons r rs ih =>
      cases hc : (r.id == i) with
      | true =>
          have hfi : ((f r).id == i) = true := by
            rw [hf r]; exact hc
          simp [updateFirst, findById, hc, List.find?_cons, hfi]
      | false =>
          simpa [updateFirst, findById, hc, List.find?_cons] using ih

theorem any_id_eq_isSome_findById (i : Nat) :
    ∀ st : Store, st.any (fun r => r.id == i) = (findById st i).isSome := by
  intro st
  induction st with
  | nil => rfl
  | cons r rs ih =>
      cases hc : (r.id == i) with
      | true => simp [findById, List.any_cons, List.find?_cons, hc]
      | false => simpa [findById, List.any_cons, List.find?_cons, hc] using ih

theorem findById_eq_none_of_not_mem (i : Nat) :
    ∀ st : Store, i ∉ st.map Issue.id → findById st i = none := by
  intro st
  induction st with
  | nil => intro _; rfl
  | cons r rs ih =>
      intro h
      simp only [List.map_cons, List.mem_cons] at h
      push_neg at h
      have h1 : (r.id == i) = false := beq_eq_false_iff_ne.mpr (fun hc => h.1 hc.symm)
      simpa [findById, List.find?_cons, h1] using ih h.2

theorem findById_removeFirst_self (i : Nat) :
    ∀ st : Store, (st.map Issue.id).Nodup →
      findById (removeFirst (fun x => x.id == i) st) i = none := by
  intro st
  induction st with
  | nil => intro _; rfl
  | cons r rs ih =>
      intro hnd
      simp only [List.map_cons, List.nodup_cons] at hnd
      cases hc : (r.id == i) with
      | true =>
          have hi : r.id = i := beq_iff_eq.mp hc
          have : i ∉ rs.map Issue.id := by rw [← hi]; exact hnd.1
          simpa [removeFirst, hc] using findById_eq_none_of_not_mem i rs this
      | false =>
          simpa [removeFirst, findById, hc, List.find?_cons] using ih hnd.2

/-! ### Helper lemmas on the outbound pass -/

theorem setSyncedFields_id (now : Nat) (n : String) (x : Issue) :
    (setSyncedFields now n x).id = x.id := rfl

theorem pushOne_inc (cfg : Bool) (oracle : Issue → CallResult) (now : Nat)
    (st : Store) (r : Issue) :
    (pushOne cfg oracle now st r).inc
      = if successfulPush cfg oracle r then 1 else 0 := by
  cases cfg with
  | false => simp [pushOne, successfulPush]
  | true =>
      cases htn : truthyName r with
      | some n =>
          cases ho : oracle r <;> simp [pushOne, successfulPush, htn, ho]
      | none =>
          cases ho : oracle r with
          | ok d => cases hd : d.name <;> simp [pushOne, successfulPush, htn, ho, hd]
          | httpError c => simp [pushOne, successfulPush, htn, ho]
          | netError => simp [pushOne, successfulPush, htn, ho]
          | otherError => simp [pushOne, successfulPush, htn, ho]

theorem pushOne_store_of_fail (cfg : Bool) (oracle : Issue → CallResult)
    (now : Nat) (st : Store) (r : Issue)
    (h : successfulPush cfg oracle r = false) :
    (pushOne cfg oracle now st r).store = st := by
  cases cfg with
  | false => simp [pushOne]
  | true =>
      cases htn : truthyName r with
      | some n =>
          cases ho : oracle r <;>
            simp [pushOne, successfulPush, htn, ho] at h ⊢
      | none =>
          cases ho : oracle r with
          | ok d =>
              cases hd : d.name <;>
                simp [pushOne, successfulPush, htn, ho, hd] at h ⊢
          | httpError c => simp [pushOne, htn, ho]
          | netError => simp [pushOne, htn, ho]
          | otherError => simp [pushOne, htn, ho]

theorem pushOne_findById_ne (cfg : Bool) (oracle : Issue → CallResult)
    (now : Nat) (st : Store) (r : Issue) (i : Nat) (hne : i ≠ r.id) :
    findById (pushOne cfg oracle now st r).store i = findById st i := by
  have key : ∀ m : String,
      findById (updateFirst (fun x => x.id == r.id) (setSyncedFields now m) st) i
        = findById st i :=
    fun m => findById_updateFirst_ne (setSyncedFields now m) i r.id (fun _ => rfl) hne st
  cases cfg with
  | false => simp [pushOne]
  | true =>
      cases htn : truthyName r with
      | some n =>
          cases ho : oracle r with
          | ok d => simpa [pushOne, htn, ho] using key n
          | httpError c => simp [pushOne, htn, ho]
          | netError => simp [pushOne, htn, ho]
          | otherError => simp [pushOne, htn, ho]
      | none =>
          cases ho : oracle r with
          | ok d =>
              cases hd : d.name with
              | some m => simpa [pushOne, htn, ho, hd] using key m
              | none => simp [pushOne, htn, ho, hd]
          | httpError c => simp [pushOne, htn, ho]
          | netError => simp [pushOne, htn, ho]
          | otherError => simp [pushOne, htn, ho]

theorem runPending_syncedCount (cfg : Bool) (oracle : Issue → CallResult)
    (now : Nat) :
    ∀ (l : List Issue) (st : Store) (c : Nat) (evs : List Event),
      (runPending cfg oracle now st c evs l).syncedCount
        = c + (l.filter (successfulPush cfg oracle)).length := by
  intro l
  induction l with
  | nil => intro st c evs; simp [runPending]
  | cons r rest ih =>
      intro st c evs
      simp only [runPending]
      rw [ih, pushOne_inc]
      cases h : successfulPush cfg oracle r with
      | true =>
          simp only [List.filter_cons, h, if_true, List.length_cons]
          omega
      | false => simp [List.filter_cons, h]

theorem runPending_findById (cfg : Bool) (oracle : Issue → CallResult)
    (now : Nat) :
    ∀ (l : List Issue) (st : Store) (c : Nat) (evs : List Event) (i : Nat),
      (∀ x ∈ l, x.id = i → successfulPush cfg oracle x = false) →
      findById (runPending cfg oracle now st c evs l).store i = findById st i := by
  intro l
  induction l with
  | nil => intro st c evs i _; rfl
  | cons r rest ih =>
      intro st c evs i h
      simp only [runPending]
      rw [ih _ _ _ _ (fun x hx => h x (List.mem_cons_of_mem r hx))]
      by_cases hid : r.id = i
      · rw [pushOne_store_of_fail cfg oracle now st r (h r (List.mem_cons_self r rest) hid)]
      · exact pushOne_findById_ne cfg oracle now st r i (fun hc => hid hc.symm)

/-! ### C2, C4, C7: the outbound pass -/

/-- C2: for a pending record processed by the outbound pass, a record with a
(truthy) ERP name is pushed with the update request (PUT) and one without
with the create request (POST); on a successful create, the name returned by
the endpoint is persisted onto the record together with synced=true and the
synced_at timestamp. -/
theorem C2_outbound_dispatch_and_persist (oracle : Issue → CallResult)
    (now : Nat) (st : Store) (r : Issue) :
    (∀ n, truthyName r = some n →
        (pushOne true oracle now st r).events.head?
          = some (Event.remotePut n (outboundPayload r (some n)))) ∧
    (truthyName r = none →
        (pushOne true oracle now st r).events.head?
          = some (Event.remotePost (outboundPayload r none))) ∧
    (∀ d m, truthyName r = none → oracle r = CallResult.ok d →
        d.name = some m →
        (pushOne true oracle now st r).store
            = updateFirst (fun x => x.id == r.id) (setSyncedFields now m) st ∧
        findById (pushOne true oracle now st r).store r.id
            = (findById st r.id).map (setSyncedFields now m) ∧
        (∀ x, setSyncedFields now m x
            = { x with synced := true, synced_at := some now, name := some m }) ∧
        (pushOne true oracle now st r).inc = 1) := by
  refine ⟨?_, ?_, ?_⟩
  · intro n hn
    cases ho : oracle r <;> simp [pushOne, hn, ho]
  · intro hn
    cases ho : oracle r with
    | ok d => cases hd : d.name <;> simp [pushOne, hn, ho, hd]
    | httpError c => simp [pushOne, hn, ho]
    | netError => simp [pushOne, hn, ho]
    | otherError => simp [pushOne, hn, ho]
  · intro d m hn ho hd
    refine ⟨by simp [pushOne, hn, ho, hd], ?_, fun x => rfl, by simp [pushOne, hn, ho, hd]⟩
    simp only [pushOne, hn, ho, hd]
    exact findById_updateFirst_self (setSyncedFields now m) r.id (fun _ => rfl) st

/-- Witness for C2: the concrete record `rNew` (no ERP name) is created
against `oracleW`, which returns name "KM-00099"; the name is persisted with
synced=true and synced_at=9. -/
theorem C2_witness :
    truthyName rNew = none ∧
    oracleW rNew = CallResult.ok { name := some "KM-00099" } ∧
    ((pushOne true oracleW 9 [rNew] rNew).store
        = updateFirst (fun x => x.id == rNew.id) (setSyncedFields 9 "KM-00099") [rNew] ∧
     findById (pushOne true oracleW 9 [rNew] rNew).store rNew.id
        = (findById [rNew] rNew.id).map (setSyncedFields 9 "KM-00099") ∧
     (∀ x, setSyncedFields 9 "KM-00099" x
        = { x with synced := true, synced_at := some 9, name := some "KM-00099" }) ∧
     (pushOne true oracleW 9 [rNew] rNew).inc = 1) :=
  ⟨rfl, rfl,
   (C2_outbound_dispatch_and_persist oracleW 9 [rNew] rNew).2.2
     { name := some "KM-00099" } "KM-00099" rfl rfl rfl⟩

/-- C4: in one outbound pass, every pending record whose push fails (remote
unreachable, rejected, any other exception, or a create without a returned
name) keeps exactly the document it had before the pass — in particular its
synced and synced_at fields; failures do not abort the pass, and the pass
returns exactly the number of pending records whose push succeeded.
`hnodup` states that Mongo `_id`s are unique. -/
theorem C4_outbound_partial_failure (cfg : Bool) (oracle : Issue → CallResult)
    (now : Nat) (st : Store) (hnodup : (st.map Issue.id).Nodup) :
    (sync_pending_issues_task cfg oracle now st).syncedCount
      = ((pendingOf st).filter (successfulPush cfg oracle)).length ∧
    ∀ r ∈ pendingOf st, successfulPush cfg oracle r = false →
      findById (sync_pending_issues_task cfg oracle now st).store r.id
        = findById st r.id := by
  constructor
  · simpa using runPending_syncedCount cfg oracle now (pendingOf st) st 0 []
  · intro r hr hfail
    apply runPending_findById
    intro x hx hxid
    have hrmem : r ∈ st := List.mem_of_mem_filter hr
    have hxmem : x ∈ st := List.mem_of_mem_filter hx
    have hx_eq : x = r := List.inj_on_of_nodup_map hnodup hxmem hrmem hxid
    rw [hx_eq]
    exact hfail

/-- Witness for C4: a two-record pending set where `rNew`'s create succeeds
and `rNew2` is rejected with a 417. -/
theorem C4_witness :
    (([rNew, rNew2].map Issue.id).Nodup) ∧
    ((sync_pending_issues_task true oracleW 7 [rNew, rNew2]).syncedCount
        = ((pendingOf [rNew, rNew2]).filter (successfulPush true oracleW)).length ∧
     ∀ r ∈ pendingOf [rNew, rNew2], successfulPush true oracleW r = false →
       findById (sync_pending_issues_task true oracleW 7 [rNew, rNew2]).store r.id
         = findById [rNew, rNew2] r.id) :=
  ⟨by decide, C4_outbound_partial_failure true oracleW 7 [rNew, rNew2] (by decide)⟩

/-- C7: when a create request succeeds but the response carries no ERP name,
the pass does not advance the record's state (the store is unchanged and the
synced count is not incremented, so the record stays synced=false), invents
no identifier, and continues the loop with the remaining records from the
same state. -/
theorem C7_create_missing_identifier (oracle : Issue → CallResult) (now : Nat)
    (st : Store) (r : Issue) (d : RespData) (c : Nat) (evs : List Event)
    (rest : List Issue)
    (hname : truthyName r = none) (hok : oracle r = CallResult.ok d)
    (hmiss : d.name = none) :
    pushOne true oracle now st r
      = { store := st, inc := 0,
          events := [Event.remotePost (outboundPayload r none)] } ∧
    runPending true oracle now st c evs (r :: rest)
      = runPending true oracle now st c
          (evs ++ [Event.remotePost (outboundPayload r none)]) rest := by
  have h1 : pushOne true oracle now st r
      = { store := st, inc := 0,
          events := [Event.remotePost (outboundPayload r none)] } := by
    simp [pushOne, hname, hok, hmiss]
  refine ⟨h1, ?_⟩
  simp [runPending, h1]

/-- Witness for C7 with the concrete always-2xx-but-nameless oracle. -/
theorem C7_witness :
    truthyName rNew = none ∧
    oracleMiss rNew = CallResult.ok { name := none } ∧
    (pushOne true oracleMiss 9 [rNew] rNew
        = { store := [rNew], inc := 0,
            events := [Event.remotePost (outboundPayload rNew none)] } ∧
     runPending true oracleMiss 9 [rNew] 0 [] [rNew, rNew2]
        = runPending true oracleMiss 9 [rNew] 0
            [Event.remotePost (outboundPayload rNew none)] [rNew2]) := by
  refine ⟨rfl, rfl, ?_⟩
  have h := C7_create_missing_identifier oracleMiss 9 [rNew] rNew
    { name := none } 0 [] [rNew2] rfl rfl rfl
  simpa using h

/-! ### C1: submit ordering -/

/-- C1 counterexample: at the concrete input `inpW` (remote unreachable), the
trace of `submit_issue` starts with the remote POST and the local insert
comes only afterwards, so the record is not written to the local store with
synced=false before the remote create request is attempted. -/
theorem C1_counterexample :
    localWriteBeforeRemote
      (submit_issue [] inpW RemoteResult.unreachable 0 0 1).events false = false := by
  decide

/-- C1 (amended): `submit_issue` attempts the remote create first; the local
write happens exactly once, after the remote attempt has completed, storing
the record with synced=true exactly when the push succeeded.  Consequently
the claimed local-write-before-remote ordering fails for every input. -/
theorem C1_submit_remote_first (st : Store) (inp : IssueEntryIn)
    (remote : RemoteResult) (now nowAfter newId : Nat) :
    (submit_issue st inp remote now nowAfter newId).events =
      [Event.remotePost (submitPayload inp now),
       Event.localInsert (submitRecord inp remote now nowAfter newId)] ∧
    (submit_issue st inp remote now nowAfter newId).store
      = st ++ [submitRecord inp remote now nowAfter newId] ∧
    (submitRecord inp remote now nowAfter newId).synced = remote.isSuccess ∧
    localWriteBeforeRemote
      (submit_issue st inp remote now nowAfter newId).events false = false := by
  refine ⟨rfl, rfl, rfl, ?_⟩
  simp [submit_issue, localWriteBeforeRemote]

/-! ### C3: submit durability under remote failure -/

/-- C3: when the remote POST fails in any way, `submit_issue` still returns
the normal 200 response (status "stored", synced false) — all exceptions are
caught — and the record is in the local store with synced=false and
synced_at=null. -/
theorem C3_submit_offline_durability (st : Store) (inp : IssueEntryIn)
    (remote : RemoteResult) (now nowAfter newId : Nat)
    (hfail : remote.isSuccess = false) :
    (submit_issue st inp remote now nowAfter newId).respStatus = "stored" ∧
    (submit_issue st inp remote now nowAfter newId).respSynced = false ∧
    ∃ r, (submit_issue st inp remote now nowAfter newId).store = st ++ [r] ∧
      r.synced = false ∧ r.synced_at = none ∧
      r.subject = some inp.subject ∧ r.raised_by = some inp.raised_by := by
  refine ⟨rfl, ?_, submitRecord inp remote now nowAfter newId, rfl, ?_, ?_, rfl, rfl⟩
  · simp [submit_issue, submitRecord, hfail]
  · simp [submitRecord, hfail]
  · simp [submitRecord, hfail]

/-! ### Helper lemmas on the inbound pass -/

theorem inboundDoc_name (now : Nat) (g : RemoteIssue) (x : Issue) :
    (inboundDoc now g x).name = x.name := rfl

theorem hasName_updateFirst (p : Issue → Bool) (f : Issue → Issue)
    (hf : ∀ x, (f x).name = x.name) (n : String) :
    ∀ st : Store, hasName (updateFirst p f st) n = hasName st n := by
  intro st
  induction st with
  | nil => rfl
  | cons r rs ih =>
      cases h : p r with
      | true => simp [updateFirst, h, hasName, List.any_cons, hf r]
      | false =>
          simp only [hasName] at ih
          simp only [updateFirst, h, hasName, List.any_cons, Bool.false_eq_true,
            if_false]
          rw [ih]

theorem upsert_hasName_mono (now : Nat) (g : RemoteIssue) (s : InboundState)
    (n : String) (h : hasName s.store n = true) :
    hasName (upsertFromErp now g s).store n = true := by
  cases hc : hasName s.store g.name with
  | true =>
      simp only [upsertFromErp, hc, if_true]
      rw [hasName_updateFirst _ _ (inboundDoc_name now g) n s.store]
      exact h
  | false =>
      simp only [upsertFromErp, hc, if_false, Bool.false_eq_true]
      simp [hasName, List.any_append] at h ⊢
      exact Or.inl h

theorem upsert_ensures (now : Nat) (g : RemoteIssue) (s : InboundState) :
    hasName (upsertFromErp now g s).store g.name = true := by
  cases hc : hasName s.store g.name with
  | true =>
      simp only [upsertFromErp, hc, if_true]
      rw [hasName_updateFirst _ _ (inboundDoc_name now g) g.name s.store]
      exact hc
  | false =>
      simp only [upsertFromErp, hc, if_false, Bool.false_eq_true]
      simp [hasName, List.any_append, freshDoc]

theorem upsert_no_insert (now : Nat) (g : RemoteIssue) (s : InboundState)
    (h : hasName s.store g.name = true) :
    (upsertFromErp now g s).inserted = s.inserted ∧
    (upsertFromErp now g s).store.length = s.store.length := by
  simp [upsertFromErp, h, updateFirst_preserves_length]

theorem processBatch_mono (now : Nat) :
    ∀ (batch : List RemoteIssue) (s : InboundState) (n : String),
      hasName s.store n = true →
      hasName (processBatch now batch s).store n = true := by
  intro batch
  induction batch with
  | nil => intro s n h; exact h
  | cons g gs ih =>
      intro s n h
      exact ih (upsertFromErp now g s) n (upsert_hasName_mono now g s n h)

theorem processBatch_ensures (now : Nat) :
    ∀ (batch : List RemoteIssue) (s : InboundState) (n : String),
      n ∈ batch.map RemoteIssue.name →
      hasName (processBatch now batch s).store n = true := by
  intro batch
  induction batch with
  | nil => intro s n h; exact absurd h (List.not_mem_nil n)
  | cons g gs ih =>
      intro s n h
      simp only [List.map_cons, List.mem_cons] at h
      cases h with
      | inl heq =>
          subst heq
          exact processBatch_mono now gs (upsertFromErp now g s) g.name
            (upsert_ensures now g s)
      | inr hmem => exact ih (upsertFromErp now g s) n hmem

theorem processBatch_no_insert (now : Nat) :
    ∀ (batch : List RemoteIssue) (s : InboundState),
      (∀ n ∈ batch.map RemoteIssue.name, hasName s.store n = true) →
      (processBatch now batch s).inserted = s.inserted ∧
      (processBatch now batch s).store.length = s.store.length := by
  intro batch
  induction batch with
  | nil => intro s _; exact ⟨rfl, rfl⟩
  | cons g gs ih =>
      intro s h
      have hg : hasName s.store g.name = true := h g.name (by simp)
      have h1 := upsert_no_insert now g s hg
      have hrest : ∀ n ∈ gs.map RemoteIssue.name,
          hasName (upsertFromErp now g s).store n = true :=
        fun n hn => upsert_hasName_mono now g s n (h n (by simp [hn]))
      have h2 := ih (upsertFromErp now g s) hrest
      exact ⟨h2.1.trans h1.1, h2.2.trans h1.2⟩

theorem inboundLoop_mono (fetch : Nat → FetchResult) (now : Nat) :
    ∀ (starts : List Nat) (s : InboundState) (n : String),
      hasName s.store n = true →
      hasName (inboundLoop fetch now starts s).store n = true := by
  intro starts
  induction starts with
  | nil => intro s n h; exact h
  | cons start rest ih =>
      intro s n h
      cases hf : fetch start with
      | err => simpa [inboundLoop, hf] using h
      | ok batch =>
          cases batch with
          | nil => simpa [inboundLoop, hf] using h
          | cons g gs =>
              simp only [inboundLoop, hf]
              exact ih (processBatch now (g :: gs) s) n
                (processBatch_mono now (g :: gs) s n h)

theorem inboundLoop_ensures (fetch : Nat → FetchResult) (now : Nat) :
    ∀ (starts : List Nat) (s : InboundState) (n : String),
      n ∈ processedNames fetch starts →
      hasName (inboundLoop fetch now starts s).store n = true := by
  intro starts
  induction starts with
  | nil => intro s n h; exact absurd h (List.not_mem_nil n)
  | cons start rest ih =>
      intro s n h
      cases hf : fetch start with
      | err =>
          simp only [processedNames, hf] at h
          exact absurd h (List.not_mem_nil n)
      | ok batch =>
          cases batch with
          | nil =>
              simp only [processedNames, hf] at h
              exact absurd h (List.not_mem_nil n)
          | cons g gs =>
              simp only [processedNames, hf] at h
              simp only [inboundLoop, hf]
              rcases List.mem_append.mp h with hmem | hmem
              · exact inboundLoop_mono fetch now rest (processBatch now (g :: gs) s) n
                  (processBatch_ensures now (g :: gs) s n hmem)
              · exact ih (processBatch now (g :: gs) s) n hmem

theorem inboundLoop_no_insert (fetch : Nat → FetchResult) (now : Nat) :
    ∀ (starts : List Nat) (s : InboundState),
      (∀ n ∈ processedNames fetch starts, hasName s.store n = true) →
      (inboundLoop fetch now starts s).inserted = s.inserted ∧
      (inboundLoop fetch now starts s).store.length = s.store.length := by
  intro starts
  induction starts with
  | nil => intro s _; exact ⟨rfl, rfl⟩
  | cons start rest ih =>
      intro s h
      cases hf : fetch start with
      | err => simp [inboundLoop, hf]
      | ok batch =>
          cases batch with
          | nil => simp [inboundLoop, hf]
          | cons g gs =>
              have hbatch : ∀ n ∈ (g :: gs).map RemoteIssue.name,
                  hasName s.store n = true := by
                intro n hn
                apply h
                simp only [processedNames, hf]
                exact List.mem_append.mpr (Or.inl hn)
              have h1 := processBatch_no_insert now (g :: gs) s hbatch
              have hrest : ∀ n ∈ processedNames fetch rest,
                  hasName (processBatch now (g :: gs) s).store n = true := by
                intro n hn
                refine processBatch_mono now (g :: gs) s n (h n ?_)
                simp only [processedNames, hf]
                exact List.mem_append.mpr (Or.inr hn)
              have h2 := ih (processBatch now (g :: gs) s) hrest
              simp only [inboundLoop, hf]
              exact ⟨h2.1.trans h1.1, h2.2.trans h1.2⟩

/-! ### C8: inbound idempotence -/

/-- C8: the inbound pass upserts every fetched remote record into the local
store keyed by the ERP name; running the pass twice against the same
unchanged remote data set (served in slices) leaves the local record count
of the first run unchanged and the second run inserts nothing.  `hb` rules
out the degenerate zero batch size, on which Python's `range` would raise. -/
theorem C8_inbound_idempotent (remote : List RemoteIssue) (now1 now2 : Nat)
    (batchSize maxRecords : Nat) (st0 : Store) (id1 id2 : Nat)
    (_hb : 0 < batchSize) :
    (sync_all_issues_from_erp (sliceFetch remote batchSize) now2 batchSize
        maxRecords
        (sync_all_issues_from_erp (sliceFetch remote batchSize) now1 batchSize
          maxRecords st0 id1).store
        id2).inserted = 0 ∧
    (sync_all_issues_from_erp (sliceFetch remote batchSize) now2 batchSize
        maxRecords
        (sync_all_issues_from_erp (sliceFetch remote batchSize) now1 batchSize
          maxRecords st0 id1).store
        id2).store.length
      = (sync_all_issues_from_erp (sliceFetch remote batchSize) now1 batchSize
          maxRecords st0 id1).store.length := by
  have hens : ∀ n ∈ processedNames (sliceFetch remote batchSize)
        (rangeStep maxRecords batchSize),
      hasName (sync_all_issues_from_erp (sliceFetch remote batchSize) now1
        batchSize maxRecords st0 id1).store n = true :=
    fun n hn => inboundLoop_ensures (sliceFetch remote batchSize) now1
      (rangeStep maxRecords batchSize)
      { store := st0, inserted := 0, updated := 0, failed := [], nextId := id1 }
      n hn
  have h2 := inboundLoop_no_insert (sliceFetch remote batchSize) now2
      (rangeStep maxRecords batchSize)
      { store := (sync_all_issues_from_erp (sliceFetch remote batchSize) now1
          batchSize maxRecords st0 id1).store
        inserted := 0, updated := 0, failed := [], nextId := id2 }
      hens
  exact ⟨h2.1, h2.2⟩

/-- Witness for C8 on the concrete three-record remote data set, batch size
2, cap 10. -/
theorem C8_witness :
    0 < 2 ∧
    ((sync_all_issues_from_erp (sliceFetch remoteW 2) 6 2 10
        (sync_all_issues_from_erp (sliceFetch remoteW 2) 5 2 10 [] 0).store
        100).inserted = 0 ∧
     (sync_all_issues_from_erp (sliceFetch remoteW 2) 6 2 10
        (sync_all_issues_from_erp (sliceFetch remoteW 2) 5 2 10 [] 0).store
        100).store.length
       = (sync_all_issues_from_erp (sliceFetch remoteW 2) 5 2 10 [] 0).store.length) :=
  ⟨by decide, C8_inbound_idempotent remoteW 5 6 2 10 [] 0 100 (by decide)⟩

/-! ### C5: caller edits invalidate sync -/

theorem applyUpdateData_id (req : IssueUpdateReq) (x : Issue) :
    (applyUpdateData req x).id = x.id := by
  cases hc : syncRelevantPresent req <;> simp [applyUpdateData, hc]

theorem applyUpdateData_unsync (req : IssueUpdateReq) (x : Issue)
    (hrel : syncRelevantPresent req = true) :
    (applyUpdateData req x).synced = false ∧
    (applyUpdateData req x).synced_at = none := by
  simp [applyUpdateData, hrel]

/-- C5: updating an existing synced record through `update_local_issue` with
any sync-relevant field present in the request — whatever its value, equal
to the current one or not — stores the record with synced=false and
synced_at=null and returns it so; the handler performs no remote request at
all, so this state holds before any remote confirmation. -/
theorem C5_edit_invalidates_sync (st : Store) (itemId : Nat)
    (req : IssueUpdateReq) (r : Issue)
    (hfind : findById st itemId = some r) (_hsynced : r.synced = true)
    (hrel : syncRelevantPresent req = true) :
    (update_local_issue st itemId req).result = some (applyUpdateData req r) ∧
    (applyUpdateData req r).synced = false ∧
    (applyUpdateData req r).synced_at = none ∧
    findById (update_local_issue st itemId req).store itemId
      = some (applyUpdateData req r) ∧
    ∀ e ∈ (update_local_issue st itemId req).events, isRemoteEvent e = false := by
  have hany : (st.any fun x => x.id == itemId) = true := by
    rw [any_id_eq_isSome_findById itemId st, hfind]
    rfl
  have hf2 : findById (updateFirst (fun x => x.id == itemId) (applyUpdateData req) st)
      itemId = some (applyUpdateData req r) := by
    rw [findById_updateFirst_self (applyUpdateData req) itemId
          (applyUpdateData_id req) st, hfind]
    rfl
  refine ⟨?_, (applyUpdateData_unsync req r hrel).1,
         (applyUpdateData_unsync req r hrel).2, ?_, ?_⟩
  · simpa [update_local_issue, hany] using hf2
  · simpa [update_local_issue, hany] using hf2
  · simp [update_local_issue, hany, isRemoteEvent]

/-- Witness for C5: the synced record `rKM` is edited by `reqW`, which sets
the subject to the value it already has. -/
theorem C5_witness :
    findById [rKM] 1 = some rKM ∧ rKM.synced = true ∧
    syncRelevantPresent reqW = true ∧
    ((update_local_issue [rKM] 1 reqW).result = some (applyUpdateData reqW rKM) ∧
     (applyUpdateData reqW rKM).synced = false ∧
     (applyUpdateData reqW rKM).synced_at = none ∧
     findById (update_local_issue [rKM] 1 reqW).store 1
       = some (applyUpdateData reqW rKM) ∧
     ∀ e ∈ (update_local_issue [rKM] 1 reqW).events, isRemoteEvent e = false) :=
  ⟨by decide, rfl, rfl, C5_edit_invalidates_sync [rKM] 1 reqW rKM (by decide) rfl rfl⟩

/-! ### C6: caller-facing delete -/

/-- C6 counterexample: the store holds `rKM`, which carries the ERP name
"KM-00042", yet deleting it produces no remote delete request in the trace —
the claimed best-effort remote delete is never attempted (the local deletion
and success response do happen). -/
theorem C6_counterexample :
    findById [rKM] 1 = some rKM ∧ rKM.name = some "KM-00042" ∧
    hasRemoteDeleteEvent (delete_local_issue [rKM] 1).events = false ∧
    (delete_local_issue [rKM] 1).notFound = false ∧
    findById (delete_local_issue [rKM] 1).store 1 = none := by
  decide

/-- C6 (amended): the caller-facing delete never contacts the remote
endpoint — it makes no remote delete request even when the record has a
remote identifier; the local record, when present, is removed from the store
and the operation reports success; it fails with NotFound exactly when the
local record is absent.  `hnodup` states that Mongo `_id`s are unique. -/
theorem C6_delete_local_only (st : Store) (itemId : Nat)
    (hnodup : (st.map Issue.id).Nodup) :
    (delete_local_issue st itemId).notFound = (findById st itemId).isNone ∧
    (∀ e ∈ (delete_local_issue st itemId).events, isRemoteEvent e = false) ∧
    hasRemoteDeleteEvent (delete_local_issue st itemId).events = false ∧
    ((findById st itemId).isSome →
      (delete_local_issue st itemId).store
          = removeFirst (fun x => x.id == itemId) st ∧
      findById (delete_local_issue st itemId).store itemId = none) := by
  have hiso := any_id_eq_isSome_findById itemId st
  cases hc : (st.any fun x => x.id == itemId) with
  | true =>
      have hsome : (findById st itemId).isSome = true := by rw [← hiso]; exact hc
      obtain ⟨v, hv⟩ := Option.isSome_iff_exists.mp hsome
      refine ⟨by simp [delete_local_issue, hc, hv], ?_, ?_, fun _ => ⟨?_, ?_⟩⟩
      · simp [delete_local_issue, hc, isRemoteEvent]
      · simp [delete_local_issue, hc, hasRemoteDeleteEvent]
      · simp [delete_local_issue, hc]
      · simpa [delete_local_issue, hc] using
          findById_removeFirst_self itemId st hnodup
  | false =>
      have hnone : findById st itemId = none := by
        cases hfind : findById st itemId with
        | none => rfl
        | some v =>
            rw [hfind] at hiso
            rw [hiso] at hc
            exact absurd hc (by simp)
      refine ⟨by simp [delete_local_issue, hc, hnone], ?_, ?_, ?_⟩
      · simp [delete_local_issue, hc, isRemoteEvent]
      · simp [delete_local_issue, hc, hasRemoteDeleteEvent]
      · intro hsome
        rw [hnone] at hsome
        exact absurd hsome (by simp)

/-- Witness for C6 on the singleton store holding `rKM`. -/
theorem C6_witness :
    (([rKM].map Issue.id).Nodup) ∧
    ((delete_local_issue [rKM] 1).notFound = (findById [rKM] 1).isNone ∧
     (∀ e ∈ (delete_local_issue [rKM] 1).events, isRemoteEvent e = false) ∧
     hasRemoteDeleteEvent (delete_local_issue [rKM] 1).events = false ∧
     ((findById [rKM] 1).isSome →
       (delete_local_issue [rKM] 1).store
           = removeFirst (fun x => x.id == 1) [rKM] ∧
       findById (delete_local_issue [rKM] 1).store 1 = none)) :=
  ⟨by decide, C6_delete_local_only [rKM] 1 (by decide)⟩

/-! ### C9: transmitted fields -/

/-- C9 counterexample: at the concrete input `inpW`, submit's outgoing
payload contains the internal bookkeeping field created_at (the serialized
timestamp) and carries the status "open" verbatim rather than its
capitalization "Open" — so for the submit push the claim fails on both
counts. -/
theorem C9_counterexample :
    lookupJ (submitPayload inpW 5) "created_at"
      = some (JValue.str (isoString 5)) ∧
    lookupJ (submitPayload inpW 5) "status" = some (JValue.str "open") ∧
    pyCapitalize "open" = "Open" ∧ "open" ≠ "Open" := by
  decide

/-- C9 (amended): records pushed by the outbound pass transmit exactly
subject, raised_by and the capitalized status (plus the ERP name on an
update) and never created_at; the submit operation's immediate push instead
transmits the full record dict — created_at included — with the status
uncapitalized. -/
theorem C9_payload_fields (r : Issue) (n : String) (inp : IssueEntryIn)
    (now : Nat) :
    lookupJ (outboundPayload r none) "created_at" = none ∧
    lookupJ (outboundPayload r (some n)) "created_at" = none ∧
    lookupJ (outboundPayload r none) "status"
      = some (JValue.str (pyCapitalize r.status)) ∧
    lookupJ (outboundPayload r (some n)) "status"
      = some (JValue.str (pyCapitalize r.status)) ∧
    (outboundPayload r none).map Prod.fst = ["subject", "raised_by", "status"] ∧
    (outboundPayload r (some n)).map Prod.fst
      = ["subject", "raised_by", "status", "name"] ∧
    lookupJ (submitPayload inp now) "created_at"
      = some (JValue.str (isoString now)) ∧
    lookupJ (submitPayload inp now) "status" = some (JValue.str inp.status) := by
  refine ⟨rfl, rfl, rfl, rfl, rfl, rfl, rfl, rfl⟩

/-! ### C10: bounded reads -/

/-- C10: each read endpoint returns the first at most 100 matching records
of the store: the result length is the minimum of 100 and the number of
matches (so whenever more than 100 records match, exactly 100 are returned
and the remainder is omitted), and every returned record belongs to the
store and satisfies the endpoint's filter. -/
theorem C10_read_caps (st : Store) :
    (get_all_issues st).length = min 100 st.length ∧
    (get_unsynced st).length = min 100 (st.filter (fun r => !r.synced)).length ∧
    (get_synced_issues st).length = min 100 (st.filter (fun r => r.synced)).length ∧
    (∀ r ∈ get_all_issues st, r ∈ st) ∧
    (∀ r ∈ get_unsynced st, r ∈ st ∧ r.synced = false) ∧
    (∀ r ∈ get_synced_issues st, r ∈ st ∧ r.synced = true) := by
  refine ⟨?_, ?_, ?_, ?_, ?_, ?_⟩
  · simp [get_all_issues]
  · simp [get_unsynced]
  · simp [get_synced_issues]
  · intro r hr
    exact List.mem_of_mem_take hr
  · intro r hr
    have h2 := List.mem_filter.mp (List.mem_of_mem_take hr)
    exact ⟨h2.1, by simpa using h2.2⟩
  · intro r hr
    have h2 := List.mem_filter.mp (List.mem_of_mem_take hr)
    exact ⟨h2.1, h2.2⟩

/-- Witness for C3 at a concrete failing remote. -/
theorem C3_witness :
    RemoteResult.isSuccess RemoteResult.unreachable = false ∧
    ((submit_issue [] inpW RemoteResult.unreachable 3 4 1).respStatus = "stored" ∧
     (submit_issue [] inpW RemoteResult.unreachable 3 4 1).respSynced = false ∧
     ∃ r, (submit_issue [] inpW RemoteResult.unreachable 3 4 1).store = [] ++ [r] ∧
       r.synced = false ∧ r.synced_at = none ∧
       r.subject = some inpW.subject ∧ r.raised_by = some inpW.raised_by) :=
  ⟨rfl, C3_submit_offline_durability [] inpW RemoteResult.unreachable 3 4 1 rfl⟩

end ErpBridge
